import Mathlib

/-! server.js: listener bootstrap and dev proxy

A shallow embedding of the two pieces of `src/server.js` that carry control
flow: `listenWithRetry` (lines 99-152) and the proxy middleware (lines 27-60).

* JavaScript numbers that hold ports and steps are integers here (`Int`); the
  loop bound `maxAttempts` is a natural number.
* The network is a bind oracle `Int → ListenOutcome`: what `server.listen(port)`
  ends in, either the `listening` event or the `error` event. `listenLoopAt`
  is the same loop over a network whose answer may change between attempts.
* Effects (`createServer()`, `server.listen`, `server.close`, `console.warn`)
  are recorded, in program order, in a list of `Event`s. The factory is taken
  to hand back a server each time it is called.
* `targetUrl` is the parsed URL object of line 28; the middleware reads its
  `protocol`, `hostname`, `port` and `host`. `parseTarget` is line 28 for a
  target of the form `scheme://hostname[:port]`.
* The URL constructor of line 32 is an argument of the middleware: it says
  for each request target whether `new URL(req.url, 'http://local')` throws
  and, when it does not, what `search` the URL object has.
-/

namespace Server

/-! ## Listener bootstrap (`listenWithRetry`) -/

/-- A JavaScript `Error` object as far as the program looks at it: `err.code`
(absent on a plain `Error`) and `err.message`. -/
structure JsError where
  code : Option String
  message : String
deriving DecidableEq, Repr

/-- How the promise around `server.listen(attemptPort)` settles.
`listening address`: the `listening` event fired; `address` is the port of
`server.address()` when that is an object, `none` when it is not.
`rejected err`: the `error` event fired with `err`; `none` stands for a falsy
value, which the guard `err && ...` of line 137 lets through to the retry. -/
inductive ListenOutcome where
  | listening (address : Option Int)
  | rejected (err : Option JsError)
deriving DecidableEq, Repr

/-- Observable effects of `listenWithRetry`, in program order. Servers are
numbered by the call of the factory that made them (0 for the first call). -/
inductive Event where
  | createServer (id : Nat)
  | listen (id : Nat) (port : Int)
  | close (id : Nat)
  | warn (msg : String)
deriving DecidableEq, Repr

/-- The value of a successful run: `{ server, port: actualPort }`. -/
structure Bound where
  server : Nat
  port : Int
deriving DecidableEq, Repr

/-- How a call of `listenWithRetry` completes: it returns a value or throws. -/
inductive Completion where
  | returned (value : Bound)
  | thrown (err : JsError)
deriving DecidableEq, Repr

/-- The `options` argument with its defaults (lines 100-104). -/
structure Options where
  maxAttempts : Nat := 10
  step : Int := 1
  label : String := "Server"
deriving DecidableEq, Repr

/-- The bind failed with an error whose code is `EADDRINUSE`. -/
def addrInUse : ListenOutcome → Prop
  | ListenOutcome.rejected (some e) => e.code = some "EADDRINUSE"
  | _ => False

instance (o : ListenOutcome) : Decidable (addrInUse o) := by
  unfold addrInUse; split <;> infer_instance

/-- Line 137: `err && err.code !== 'EADDRINUSE'`. -/
def shouldRethrow : Option JsError → Bool
  | none => false
  | some e => decide (e.code ≠ some "EADDRINUSE")

/-- Line 132: the text of the fallback warning. -/
def warnMessage (label : String) (preferredPort actualPort : Int) : String :=
  label ++ " port " ++ toString preferredPort ++ " in use, switched to " ++ toString actualPort

/-- Line 151: the error thrown once the loop has run out. -/
def exhaustionError (label : String) (preferredPort : Int) : JsError :=
  { code := none
    message := label ++ " failed to find an open port (starting at " ++ toString preferredPort ++ ")" }

/-- Lines 131-133: the warning is emitted when `preferredPort` is truthy
(non-zero) and differs from `actualPort`. -/
def fallbackWarning (label : String) (preferredPort actualPort : Int) : List Event :=
  if preferredPort ≠ 0 ∧ actualPort ≠ preferredPort then
    [Event.warn (warnMessage label preferredPort actualPort)]
  else []

/-- The `for` loop of lines 108-149. `remaining` is `maxAttempts - attempt`,
`attempt` the loop counter and `attemptPort` the mutable candidate port. The
result is what the function returns or throws, with the effects it had. -/
def listenLoop (bind : Int → ListenOutcome) (preferredPort step : Int) (label : String) :
    (remaining attempt : Nat) → (attemptPort : Int) → Completion × List Event
  | 0, _, _ => (Completion.thrown (exhaustionError label preferredPort), [])
  | remaining + 1, attempt, attemptPort =>
    match bind attemptPort with
    | ListenOutcome.listening address =>
      let actualPort := address.getD attemptPort
      (Completion.returned { server := attempt, port := actualPort },
        [Event.createServer attempt, Event.listen attempt attemptPort]
          ++ fallbackWarning label preferredPort actualPort)
    | ListenOutcome.rejected err =>
      match err, shouldRethrow err with
      | some e, true =>
        (Completion.thrown e, [Event.createServer attempt, Event.listen attempt attemptPort])
      | _, _ =>
        let rest := listenLoop bind preferredPort step label remaining (attempt + 1)
          (attemptPort + step)
        (rest.1, [Event.createServer attempt, Event.listen attempt attemptPort,
          Event.close attempt] ++ rest.2)

/-- The function `listenWithRetry(createServer, preferredPort, options)`. -/
def listenWithRetry (bind : Int → ListenOutcome) (preferredPort : Int) (options : Options) :
    Completion × List Event :=
  listenLoop bind preferredPort options.step options.label options.maxAttempts 0 preferredPort

/-- The ports handed to `server.listen`, in call order. -/
def listenPorts : List Event → List Int
  | [] => []
  | Event.listen _ port :: rest => port :: listenPorts rest
  | _ :: rest => listenPorts rest

/-- The servers made by the factory, in call order. -/
def createdServers : List Event → List Nat
  | [] => []
  | Event.createServer id :: rest => id :: createdServers rest
  | _ :: rest => createdServers rest

/-- The warnings written with `console.warn`, in order. -/
def warnings : List Event → List String
  | [] => []
  | Event.warn msg :: rest => msg :: warnings rest
  | _ :: rest => warnings rest

/-- An oracle for tests: the ports in `busy` are taken, every other port binds
and reports itself as the address. -/
def busyPorts (busy : List Int) (port : Int) : ListenOutcome :=
  if port ∈ busy then
    ListenOutcome.rejected (some { code := some "EADDRINUSE", message := "listen EADDRINUSE" })
  else ListenOutcome.listening (some port)

/-! ## Dev proxy middleware (lines 27-60)

JavaScript strings that are cut or compared (`req.url`, `PROXY_PREFIX`) are
lists of characters: `startsWith` is `List.isPrefixOf`, `slice(n)` is
`List.drop n` and `.length` is `List.length`. -/

/-- The fields of the parsed `targetUrl` object that the middleware reads.
`port` is the empty string when the URL object carries no port. -/
structure TargetUrl where
  protocol : String
  hostname : String
  port : String
deriving DecidableEq, Repr

/-- The `host` getter of a URL object: the hostname, followed by `:` and the
port when the port is not empty. -/
def TargetUrl.host (u : TargetUrl) : String :=
  if u.port = "" then u.hostname else u.hostname ++ ":" ++ u.port

/-- The request headers object: own properties in insertion order. -/
abbrev Headers := List (String × String)

/-- Property read `headers[name]`. -/
def Headers.get (h : Headers) (name : String) : Option String :=
  match h with
  | [] => none
  | (k, v) :: rest => if k = name then some v else Headers.get rest name

/-- Property write `headers[name] = value`, as the object literal
`{ ...headers, [name]: value }` does it: an existing property keeps its place
and takes the new value, a new one is added last. -/
def Headers.set (h : Headers) (name value : String) : Headers :=
  match h with
  | [] => [(name, value)]
  | (k, v) :: rest =>
    if k = name then (k, value) :: rest else (k, v) :: Headers.set rest name value

/-- The incoming request as far as the middleware reads it. -/
structure Request where
  method : String
  url : List Char
  headers : Headers
deriving DecidableEq, Repr

/-- The module the upstream request is made with (line 37). -/
inductive Client where
  | http
  | https
deriving DecidableEq, Repr

/-- The value of `options.port`: the string `targetUrl.port`, or the number
443 or 80. -/
inductive PortValue where
  | text (s : String)
  | number (n : Nat)
deriving DecidableEq, Repr

/-- The `options` object of lines 39-46. -/
structure RequestOptions where
  protocol : String
  hostname : String
  port : PortValue
  method : String
  path : List Char
  headers : Headers
deriving DecidableEq, Repr

/-- What the middleware does with a request: it calls `next()` and leaves the
request as it is, or `new URL(req.url, 'http://local')` of line 32 throws and
the exception leaves the middleware with no upstream request made, or it
issues `client.request(options, ...)` and pipes the request into it. -/
inductive ProxyAction where
  | next (req : Request)
  | threw
  | forward (client : Client) (options : RequestOptions)
deriving DecidableEq, Repr

/-- The `search` getter of `new URL(u, 'http://local')` for a request target
`u` in origin form whose characters the URL parser copies as they are: the
part from the first `?` up to a `#`, and the empty string when nothing follows
the `?`. -/
def urlSearch (u : List Char) : List Char :=
  match (u.takeWhile (fun c => c != '#')).dropWhile (fun c => c != '?') with
  | [] => []
  | [_] => []
  | q => q

/-- Line 33: `req.url.slice(PROXY_PREFIX.length) || '/'`. -/
def strippedPath (PROXY_PREFIX url : List Char) : List Char :=
  let sliced := url.drop PROXY_PREFIX.length
  if sliced.isEmpty then ['/'] else sliced

/-- Line 34: `strippedPath + (original.search || '')`, with `search` the value
of `original.search`. -/
def pathWithQuery (PROXY_PREFIX url search : List Char) : List Char :=
  strippedPath PROXY_PREFIX url ++ search

/-- The middleware of lines 29-60, up to the point where the upstream request
is issued. The URL constructor of the platform comes in as `newURL`: for a
request target `u`, `newURL u` is `none` when `new URL(u, 'http://local')`
throws and `some s` when it gives a URL object whose `search` is `s`. -/
def proxyMiddleware (newURL : List Char → Option (List Char)) (PROXY_PREFIX : List Char)
    (targetUrl : TargetUrl) (req : Request) : ProxyAction :=
  if !(PROXY_PREFIX.isPrefixOf req.url) then ProxyAction.next req
  else
    match newURL req.url with
    | none => ProxyAction.threw
    | some search =>
      let isHttps := targetUrl.protocol == "https:"
      let client := if isHttps then Client.https else Client.http
      ProxyAction.forward client
        { protocol := targetUrl.protocol
          hostname := targetUrl.hostname
          port := if targetUrl.port ≠ "" then PortValue.text targetUrl.port
            else PortValue.number (if isHttps then 443 else 80)
          method := req.method
          path := pathWithQuery PROXY_PREFIX req.url search
          headers := Headers.set req.headers "host" targetUrl.host }

/-- Whether the middleware issues the upstream request. -/
def ProxyAction.takesOver : ProxyAction → Bool
  | ProxyAction.next _ => false
  | ProxyAction.threw => false
  | ProxyAction.forward _ _ => true

/-- The character is `/` or a backslash. -/
def isSlash (c : Char) : Bool :=
  c == '/' || c == '\\'

/-- The request target starts with two slashes and names no host after them:
what follows its leading slashes is nothing, or starts with `?` or `#`. For
such a target `new URL(u, 'http://local')` throws. -/
def emptyHost (u : List Char) : Bool :=
  match u with
  | c :: d :: rest =>
    isSlash c && isSlash d &&
      (match rest.dropWhile isSlash with
        | [] => true
        | e :: _ => e == '?' || e == '#')
  | _ => false

/-- A URL constructor for tests: it throws on a target with an empty host and
gives the `search` of `urlSearch` otherwise. It agrees with
`new URL(u, 'http://local')` on the targets of which `emptyHost` holds and on
the targets in origin form, a `/` with no second slash after it, whose
characters the URL parser copies as they are. -/
def sampleNewURL (u : List Char) : Option (List Char) :=
  if emptyHost u then none else some (urlSearch u)

/-- The parsed target `http://up.example:9000`. -/
def upExample : TargetUrl :=
  { protocol := "http:", hostname := "up.example", port := "9000" }

/-- The path of the upstream request, when one is issued. -/
def upstreamPath : ProxyAction → Option (List Char)
  | ProxyAction.forward _ options => some options.path
  | _ => none

/-- A header of the upstream request, when one is issued. -/
def upstreamHeader : ProxyAction → String → Option String
  | ProxyAction.forward _ options, name => options.headers.get name
  | _, _ => none

/-- The character ends the scheme or the authority of a URI. -/
def isDelimiter (c : Char) : Bool :=
  c == '/' || c == '?' || c == '#'

/-- The URI without its scheme: a non-empty run of characters other than `:`,
`/`, `?` and `#` that is followed by `:` is a scheme and is removed with the
`:`. -/
def dropScheme (url : List Char) : List Char :=
  match url.dropWhile (fun c => !(c == ':' || isDelimiter c)) with
  | ':' :: rest => if url.head? = some ':' then url else rest
  | _ => url

/-- The URI without its authority: after `//`, what runs up to the next `/`,
`?` or `#` is the authority and is removed with the `//`. -/
def dropAuthority (url : List Char) : List Char :=
  match url with
  | '/' :: '/' :: rest => rest.dropWhile (fun c => !isDelimiter c)
  | _ => url

/-- The request path with the query string excluded: the path component of the
request target, which is what follows the scheme and the authority, if there
are any, up to the first `?` or `#`. -/
def requestPath (url : List Char) : List Char :=
  (dropAuthority (dropScheme url)).takeWhile (fun c => !(c == '?' || c == '#'))

/-- The query string with its leading `?`: what follows the path component up
to a `#`, when it starts with `?`. -/
def queryString (url : List Char) : List Char :=
  match (dropAuthority (dropScheme url)).dropWhile (fun c => !(c == '?' || c == '#')) with
  | '?' :: rest => '?' :: rest.takeWhile (fun c => c != '#')
  | _ => []

/-- The target URL as configured in `PROXY_TARGET`, `scheme://hostname` with
`:port` after it when `port` is given; `scheme` and `hostname` are in the form
in which the URL object reports them. -/
structure TargetText where
  scheme : String
  hostname : String
  port : Option Nat
deriving DecidableEq, Repr

/-- The default port of a scheme, for the schemes that have one. -/
def defaultPort (scheme : String) : Option Nat :=
  if scheme = "http" then some 80
  else if scheme = "https" then some 443
  else if scheme = "ws" then some 80
  else if scheme = "wss" then some 443
  else if scheme = "ftp" then some 21
  else none

/-- Line 28, `new URL(PROXY_TARGET)`: it throws for a port above 65535
(`none`); the URL object has no port when the text gives none or gives the
default port of the scheme. -/
def parseTarget (t : TargetText) : Option TargetUrl :=
  match t.port with
  | none => some { protocol := t.scheme ++ ":", hostname := t.hostname, port := "" }
  | some p =>
    if 65535 < p then none
    else some { protocol := t.scheme ++ ":", hostname := t.hostname
                port := if defaultPort t.scheme = some p then "" else toString p }

/-- The authority the claim words: the hostname, followed by `:` and the port
when the target URL gives a port. -/
def TargetText.authority (t : TargetText) : String :=
  match t.port with
  | none => t.hostname
  | some p => t.hostname ++ ":" ++ toString p

/-- The rewrite as the specification words it: the request path without its
query string, with the matched part removed, `/` if that is empty, followed by
the query string. -/
def specRewrite (PROXY_PREFIX url : List Char) : List Char :=
  let rest := (requestPath url).drop PROXY_PREFIX.length
  (if rest.isEmpty then ['/'] else rest) ++ queryString url

/-! ### The response to the caller -/

/-- The server response `res` as the error handler sees and changes it.
`statusCode` is the property of that name; `sentStatus` is the status line that
went out with the headers (`none` while no headers were sent), `sentBody` the
body bytes written so far and `ended` whether `end` was called. -/
structure Response where
  statusCode : Nat
  sentStatus : Option Nat
  sentHeaders : Headers
  sentBody : String
  ended : Bool
deriving DecidableEq, Repr

/-- A response nothing has been written to. -/
def Response.fresh : Response :=
  { statusCode := 200, sentStatus := none, sentHeaders := [], sentBody := "", ended := false }

/-- The getter `res.headersSent`. -/
def Response.headersSent (res : Response) : Bool :=
  res.sentStatus.isSome

/-- What holds of every response: before the headers nothing was written and
the response is not ended. -/
def Response.WellFormed (res : Response) : Prop :=
  res.sentStatus = none → res.sentBody = "" ∧ res.ended = false

/-- The call `res.writeHead(statusCode, headers)`; `none` when it throws because the
headers were already sent. -/
def Response.writeHead (res : Response) (statusCode : Nat) (headers : Headers) :
    Option Response :=
  if res.headersSent then none
  else some { res with statusCode := statusCode, sentStatus := some statusCode,
                       sentHeaders := headers }

/-- The call `res.write(chunk)`; headers not yet sent go out first with the current
`statusCode`. Nothing is written after `end`. -/
def Response.write (res : Response) (chunk : String) : Response :=
  if res.ended then res
  else { res with sentStatus := some (res.sentStatus.getD res.statusCode),
                  sentBody := res.sentBody ++ chunk }

/-- The call `res.end(chunk)`: writes `chunk` as the last piece of the body and ends the
response; it does nothing when the response has already ended. -/
def Response.end (res : Response) (chunk : String) : Response :=
  if res.ended then res
  else { res with sentStatus := some (res.sentStatus.getD res.statusCode),
                  sentBody := res.sentBody ++ chunk, ended := true }

/-- The response callback of lines 48-51 up to the start of the pipe:
`res.writeHead(proxyRes.statusCode || 502, proxyRes.headers)`. -/
def onProxyResponse (proxyStatus : Nat) (proxyHeaders : Headers) (res : Response) :
    Option Response :=
  res.writeHead (if proxyStatus ≠ 0 then proxyStatus else 502) proxyHeaders

/-- The `error` handler of the upstream request (lines 53-57): the line logged
with `console.error` and the response afterwards. -/
def onProxyError (err : JsError) (res : Response) : String × Response :=
  let res1 := if !res.headersSent then { res with statusCode := 502 } else res
  ("Proxy error: " ++ err.message, res1.end "Bad Gateway")

/-- The effects of `k` attempts in a row that each end in a retry, the first
of them made by loop counter `attempt` on port `attemptPort`. -/
def retriedAttempts (step : Int) : (k attempt : Nat) → (attemptPort : Int) → List Event
  | 0, _, _ => []
  | k + 1, attempt, attemptPort =>
    Event.createServer attempt :: Event.listen attempt attemptPort :: Event.close attempt
      :: retriedAttempts step k (attempt + 1) (attemptPort + step)

/-- A network for tests: port 3000 is in use, binding port 3001 is refused
with `EACCES`, port 0 gets the free port 49152 and every other port binds. -/
def sampleNetwork (port : Int) : ListenOutcome :=
  if port = 3000 then
    ListenOutcome.rejected (some { code := some "EADDRINUSE", message := "listen EADDRINUSE" })
  else if port = 3001 then
    ListenOutcome.rejected (some { code := some "EACCES", message := "listen EACCES" })
  else if port = 0 then ListenOutcome.listening (some 49152)
  else ListenOutcome.listening (some port)

/-- A network for tests in which every port is in use. -/
def allBusy (_port : Int) : ListenOutcome :=
  ListenOutcome.rejected (some { code := some "EADDRINUSE", message := "listen EADDRINUSE" })

/-- The text `msg` contains the decimal numeral of `n`. -/
def namesNumber (msg : String) (n : Int) : Prop :=
  (toString n).toList <:+: msg.toList

instance (msg : String) (n : Int) : Decidable (namesNumber msg n) := by
  unfold namesNumber; infer_instance

/-- The loop of lines 108-149 over a network whose answer may change from one
attempt to the next: `bind attempt port` is how `listen(port)` of attempt
number `attempt` settles. The body is that of `listenLoop`. -/
def listenLoopAt (bind : Nat → Int → ListenOutcome) (preferredPort step : Int)
    (label : String) :
    (remaining attempt : Nat) → (attemptPort : Int) → Completion × List Event
  | 0, _, _ => (Completion.thrown (exhaustionError label preferredPort), [])
  | remaining + 1, attempt, attemptPort =>
    match bind attempt attemptPort with
    | ListenOutcome.listening address =>
      let actualPort := address.getD attemptPort
      (Completion.returned { server := attempt, port := actualPort },
        [Event.createServer attempt, Event.listen attempt attemptPort]
          ++ fallbackWarning label preferredPort actualPort)
    | ListenOutcome.rejected err =>
      match err, shouldRethrow err with
      | some e, true =>
        (Completion.thrown e, [Event.createServer attempt, Event.listen attempt attemptPort])
      | _, _ =>
        let rest := listenLoopAt bind preferredPort step label remaining (attempt + 1)
          (attemptPort + step)
        (rest.1, [Event.createServer attempt, Event.listen attempt attemptPort,
          Event.close attempt] ++ rest.2)

/-- The function `listenWithRetry` over such a network. -/
def listenWithRetryAt (bind : Nat → Int → ListenOutcome) (preferredPort : Int)
    (options : Options) : Completion × List Event :=
  listenLoopAt bind preferredPort options.step options.label options.maxAttempts 0
    preferredPort

/-- The bind failed and the `catch` branch goes on to the next port: the test
of line 137 is false for the value the promise was rejected with. -/
def leadsToRetry : ListenOutcome → Prop
  | ListenOutcome.rejected err => shouldRethrow err = false
  | ListenOutcome.listening _ => False

instance (o : ListenOutcome) : Decidable (leadsToRetry o) := by
  unfold leadsToRetry; split <;> infer_instance

/-- A network for tests: the first attempt finds the port in use, the second
is refused with `EACCES`, whatever the port. -/
def busyThenRefused (attempt : Nat) (_port : Int) : ListenOutcome :=
  if attempt = 0 then
    ListenOutcome.rejected (some { code := some "EADDRINUSE", message := "listen EADDRINUSE" })
  else ListenOutcome.rejected (some { code := some "EACCES", message := "listen EACCES" })

/-- A network for tests: the bind of port 3000 is rejected with a falsy value,
every other port binds. -/
def falsyRejection (port : Int) : ListenOutcome :=
  if port = 3000 then ListenOutcome.rejected none else ListenOutcome.listening (some port)

/-! ## Lemmas on the event projections -/

theorem listenPorts_append (xs ys : List Event) :
    listenPorts (xs ++ ys) = listenPorts xs ++ listenPorts ys := by
  induction xs with
  | nil => rfl
  | cons x xs ih => cases x <;> simp [listenPorts, ih]

theorem createdServers_append (xs ys : List Event) :
    createdServers (xs ++ ys) = createdServers xs ++ createdServers ys := by
  induction xs with
  | nil => rfl
  | cons x xs ih => cases x <;> simp [createdServers, ih]

theorem warnings_append (xs ys : List Event) :
    warnings (xs ++ ys) = warnings xs ++ warnings ys := by
  induction xs with
  | nil => rfl
  | cons x xs ih => cases x <;> simp [warnings, ih]

theorem listenPorts_retriedAttempts (step : Int) (k : Nat) :
    ∀ (attempt : Nat) (port : Int),
      listenPorts (retriedAttempts step k attempt port)
        = (List.range k).map (fun i : Nat => port + (i : Int) * step) := by
  induction k with
  | zero => intro attempt port; rfl
  | succ k ih =>
    intro attempt port
    rw [List.range_succ_eq_map]
    simp only [retriedAttempts, listenPorts, ih, List.map_cons, List.map_map]
    refine congrArg₂ _ (by simp) (List.map_congr_left ?_)
    intro i _
    simp only [Function.comp, Nat.succ_eq_add_one]
    push_cast
    ring

theorem createdServers_retriedAttempts (step : Int) (k : Nat) :
    ∀ (attempt : Nat) (port : Int),
      createdServers (retriedAttempts step k attempt port)
        = (List.range k).map (fun i : Nat => attempt + i) := by
  induction k with
  | zero => intro attempt port; rfl
  | succ k ih =>
    intro attempt port
    rw [List.range_succ_eq_map]
    simp only [retriedAttempts, createdServers, ih, List.map_cons, List.map_map]
    refine congrArg₂ _ (by simp) (List.map_congr_left ?_)
    intro i _
    simp only [Function.comp, Nat.succ_eq_add_one]
    omega

theorem warnings_retriedAttempts (step : Int) (k : Nat) :
    ∀ (attempt : Nat) (port : Int), warnings (retriedAttempts step k attempt port) = [] := by
  induction k with
  | zero => intro attempt port; rfl
  | succ k ih =>
    intro attempt port
    simp [retriedAttempts, warnings, ih]

/-! ## Lemmas on the loop -/

/-- One pass of the loop on a port that is in use: the server is closed and
the loop goes on with the next counter and the next port. -/
theorem listenLoop_retry (bind : Int → ListenOutcome) (P step : Int) (label : String)
    (n attempt : Nat) (port : Int) (h : addrInUse (bind port)) :
    listenLoop bind P step label (n + 1) attempt port
      = ((listenLoop bind P step label n (attempt + 1) (port + step)).1,
          [Event.createServer attempt, Event.listen attempt port, Event.close attempt]
            ++ (listenLoop bind P step label n (attempt + 1) (port + step)).2) := by
  cases hb : bind port with
  | listening address => simp [hb, addrInUse] at h
  | rejected err =>
    cases err with
    | none => simp [hb, addrInUse] at h
    | some e =>
      have hc : e.code = some "EADDRINUSE" := by simpa [hb, addrInUse] using h
      simp [listenLoop, hb, shouldRethrow, hc]

/-- The loop over `k` ports in use: `k` retried attempts, then the loop as it
runs from counter `attempt + k` and port `port + k * step`. -/
theorem listenLoop_busy (bind : Int → ListenOutcome) (P step : Int) (label : String)
    (k : Nat) :
    ∀ (m attempt : Nat) (port : Int),
      (∀ i : Nat, i < k → addrInUse (bind (port + (i : Int) * step))) →
      listenLoop bind P step label (k + m) attempt port
        = ((listenLoop bind P step label m (attempt + k) (port + (k : Int) * step)).1,
            retriedAttempts step k attempt port
              ++ (listenLoop bind P step label m (attempt + k) (port + (k : Int) * step)).2) := by
  induction k with
  | zero => intro m attempt port _; simp [retriedAttempts]
  | succ k ih =>
    intro m attempt port h
    have h0 : addrInUse (bind port) := by simpa using h 0 (Nat.succ_pos k)
    have hrest : ∀ i : Nat, i < k → addrInUse (bind (port + step + (i : Int) * step)) := by
      intro i hi
      have := h (i + 1) (Nat.succ_lt_succ hi)
      have e : port + ((i + 1 : Nat) : Int) * step = port + step + (i : Int) * step := by
        push_cast; ring
      rwa [e] at this
    have e1 : k + 1 + m = (k + m) + 1 := by omega
    have e2 : attempt + 1 + k = attempt + (k + 1) := by omega
    have e3 : port + step + (k : Int) * step = port + ((k + 1 : Nat) : Int) * step := by
      push_cast; ring
    rw [e1, listenLoop_retry bind P step label (k + m) attempt port h0,
      ih m (attempt + 1) (port + step) hrest, e2, e3]
    simp [retriedAttempts]

/-- A run that returns has written the fallback warning for the port it
returns and nothing else; a run that throws has written no warning. -/
theorem listenLoop_warnings (bind : Int → ListenOutcome) (P step : Int) (label : String)
    (n : Nat) :
    ∀ (attempt : Nat) (port : Int),
      warnings (listenLoop bind P step label n attempt port).2
        = match (listenLoop bind P step label n attempt port).1 with
          | Completion.returned b => warnings (fallbackWarning label P b.port)
          | Completion.thrown _ => [] := by
  induction n with
  | zero => intro attempt port; rfl
  | succ n ih =>
    intro attempt port
    rw [listenLoop]
    cases hb : bind port with
    | listening address => simp [warnings_append, warnings]
    | rejected err =>
      cases err with
      | none => simpa [shouldRethrow, warnings] using ih (attempt + 1) (port + step)
      | some e =>
        by_cases hc : e.code = some "EADDRINUSE"
        · simpa [shouldRethrow, hc, warnings] using ih (attempt + 1) (port + step)
        · simp [shouldRethrow, hc, warnings]

theorem listenLoop_free (bind : Int → ListenOutcome) (P step : Int) (label : String)
    (n attempt : Nat) (port : Int) (address : Option Int)
    (h : bind port = ListenOutcome.listening address) :
    listenLoop bind P step label (n + 1) attempt port
      = (Completion.returned { server := attempt, port := address.getD port },
          [Event.createServer attempt, Event.listen attempt port]
            ++ fallbackWarning label P (address.getD port)) := by
  simp [listenLoop, h]

theorem listenPorts_fallbackWarning (label : String) (P actual : Int) :
    listenPorts (fallbackWarning label P actual) = [] := by
  unfold fallbackWarning; split <;> rfl

theorem createdServers_fallbackWarning (label : String) (P actual : Int) :
    createdServers (fallbackWarning label P actual) = [] := by
  unfold fallbackWarning; split <;> rfl

/-- The run up to attempt `k`, when the `k` ports before it are in use. -/
theorem listenWithRetry_split (bind : Int → ListenOutcome) (P : Int) (options : Options)
    (k : Nat) (hk : k ≤ options.maxAttempts)
    (hbusy : ∀ i : Nat, i < k → addrInUse (bind (P + (i : Int) * options.step))) :
    listenWithRetry bind P options
      = ((listenLoop bind P options.step options.label (options.maxAttempts - k) k
            (P + (k : Int) * options.step)).1,
          retriedAttempts options.step k 0 P
            ++ (listenLoop bind P options.step options.label (options.maxAttempts - k) k
                (P + (k : Int) * options.step)).2) := by
  have e : options.maxAttempts = k + (options.maxAttempts - k) := by omega
  have h := listenLoop_busy bind P options.step options.label k (options.maxAttempts - k) 0 P
    hbusy
  rw [Nat.zero_add] at h
  unfold listenWithRetry
  rw [← h, ← e]

theorem map_range_succ_ports (P step : Int) (k : Nat) :
    (List.range k).map (fun i : Nat => P + (i : Int) * step) ++ [P + (k : Int) * step]
      = (List.range (k + 1)).map (fun i : Nat => P + (i : Int) * step) := by
  simp [List.range_succ]

theorem map_range_succ_ids (k : Nat) :
    (List.range k).map (fun i : Nat => 0 + i) ++ [k] = List.range (k + 1) := by
  simp [List.range_succ]

/-- A run that returns hands back the server of its last `listen` call, with
the port of that server's address, or the requested port when the address
gives none. -/
theorem listenLoop_returned (bind : Int → ListenOutcome) (P step : Int) (label : String)
    (n : Nat) :
    ∀ (attempt : Nat) (port : Int) (b : Bound),
      (listenLoop bind P step label n attempt port).1 = Completion.returned b →
      ∃ (p : Int) (address : Option Int),
        Event.listen b.server p ∈ (listenLoop bind P step label n attempt port).2
          ∧ bind p = ListenOutcome.listening address ∧ b.port = address.getD p := by
  induction n with
  | zero => intro attempt port b h; simp [listenLoop] at h
  | succ n ih =>
    intro attempt port b
    rw [listenLoop]
    cases hb : bind port with
    | listening address =>
      intro h
      simp only [Completion.returned.injEq] at h
      subst h
      exact ⟨port, address, by simp, hb, rfl⟩
    | rejected err =>
      cases err with
      | none =>
        intro h
        obtain ⟨p, address, hm, h1, h2⟩ := ih (attempt + 1) (port + step) b
          (by simpa [shouldRethrow] using h)
        exact ⟨p, address, by simp [shouldRethrow, hm], h1, h2⟩
      | some e =>
        by_cases hc : e.code = some "EADDRINUSE"
        · intro h
          obtain ⟨p, address, hm, h1, h2⟩ := ih (attempt + 1) (port + step) b
            (by simpa [shouldRethrow, hc] using h)
          exact ⟨p, address, by simp [shouldRethrow, hc, hm], h1, h2⟩
        · intro h
          simp [shouldRethrow, hc] at h

/-! ## The listener bootstrap: the claims -/

/-- C2: when the ports `P, P + step, ..., P + (k-1) * step` are in use and
`P + k * step` binds, with `k < maxAttempts`, `listenWithRetry` returns the
server of attempt `k`, the one `listen` was called on with `P + k * step`, and
the port of its address (`P + k * step` itself when the address gives none);
it has called `listen` on exactly the ports `P + attempt * step` for
`attempt = 0..k`, in that order, each on a server of its own. -/
theorem listenWithRetry_first_free (bind : Int → ListenOutcome) (P : Int) (options : Options)
    (k : Nat) (address : Option Int) (hk : k < options.maxAttempts)
    (hbusy : ∀ i : Nat, i < k → addrInUse (bind (P + (i : Int) * options.step)))
    (hfree : bind (P + (k : Int) * options.step) = ListenOutcome.listening address) :
    (listenWithRetry bind P options).1
        = Completion.returned
            { server := k, port := address.getD (P + (k : Int) * options.step) }
      ∧ listenPorts (listenWithRetry bind P options).2
          = (List.range (k + 1)).map (fun i : Nat => P + (i : Int) * options.step)
      ∧ createdServers (listenWithRetry bind P options).2 = List.range (k + 1)
      ∧ Event.listen k (P + (k : Int) * options.step) ∈ (listenWithRetry bind P options).2 := by
  obtain ⟨m, hm⟩ : ∃ m, options.maxAttempts - k = m + 1 := ⟨options.maxAttempts - k - 1, by omega⟩
  rw [listenWithRetry_split bind P options k (Nat.le_of_lt hk) hbusy, hm,
    listenLoop_free bind P options.step options.label m k _ address hfree]
  refine ⟨rfl, ?_, ?_, by simp⟩
  · simp only [listenPorts_append, listenPorts_retriedAttempts, listenPorts,
      listenPorts_fallbackWarning, List.cons_append, List.nil_append]
    exact map_range_succ_ports P options.step k
  · simp only [createdServers_append, createdServers_retriedAttempts, createdServers,
      createdServers_fallbackWarning, List.cons_append, List.nil_append]
    exact map_range_succ_ids k

/-- Witness of C2: ports 3000 and 3001 in use, 3002 free. -/
theorem listenWithRetry_first_free_witness :
    (listenWithRetry (busyPorts [3000, 3001]) 3000 {}).1
        = Completion.returned { server := 2, port := 3002 }
      ∧ listenPorts (listenWithRetry (busyPorts [3000, 3001]) 3000 {}).2 = [3000, 3001, 3002] := by
  have h := listenWithRetry_first_free (busyPorts [3000, 3001]) 3000 {} 2 (some 3002)
    (by decide) (by decide) (by decide)
  exact ⟨h.1, h.2.1⟩

/-- C3: when every port `preferredPort + attempt * step`, `attempt <
maxAttempts`, is in use, `listenWithRetry` throws the exhaustion error after
exactly `maxAttempts` calls of the factory and exactly `maxAttempts` calls of
`listen`, one per port of the sequence. -/
theorem listenWithRetry_exhausts (bind : Int → ListenOutcome) (P : Int) (options : Options)
    (hall : ∀ i : Nat, i < options.maxAttempts →
      addrInUse (bind (P + (i : Int) * options.step))) :
    (listenWithRetry bind P options).1 = Completion.thrown (exhaustionError options.label P)
      ∧ createdServers (listenWithRetry bind P options).2 = List.range options.maxAttempts
      ∧ listenPorts (listenWithRetry bind P options).2
          = (List.range options.maxAttempts).map (fun i : Nat => P + (i : Int) * options.step)
      ∧ (createdServers (listenWithRetry bind P options).2).length = options.maxAttempts
      ∧ (listenPorts (listenWithRetry bind P options).2).length = options.maxAttempts := by
  have hsplit := listenWithRetry_split bind P options options.maxAttempts (Nat.le_refl _) hall
  rw [Nat.sub_self] at hsplit
  have hc : createdServers (listenWithRetry bind P options).2 = List.range options.maxAttempts := by
    rw [hsplit]
    simp [createdServers_append, createdServers_retriedAttempts, listenLoop, createdServers]
  have hl : listenPorts (listenWithRetry bind P options).2
      = (List.range options.maxAttempts).map (fun i : Nat => P + (i : Int) * options.step) := by
    rw [hsplit]
    simp [listenPorts_append, listenPorts_retriedAttempts, listenLoop, listenPorts]
  refine ⟨?_, hc, hl, ?_, ?_⟩
  · rw [hsplit]; rfl
  · rw [hc, List.length_range]
  · rw [hl, List.length_map, List.length_range]

/-- Witness of C3: three attempts from port 3000, ports 3000, 3001 and 3002 in
use. -/
theorem listenWithRetry_exhausts_witness :
    (listenWithRetry (busyPorts [3000, 3001, 3002]) 3000 { maxAttempts := 3 }).1
        = Completion.thrown (exhaustionError "Server" 3000)
      ∧ (createdServers
          (listenWithRetry (busyPorts [3000, 3001, 3002]) 3000 { maxAttempts := 3 }).2).length = 3
      ∧ (listenPorts
          (listenWithRetry (busyPorts [3000, 3001, 3002]) 3000 { maxAttempts := 3 }).2).length = 3 := by
  have h := listenWithRetry_exhausts (busyPorts [3000, 3001, 3002]) 3000 { maxAttempts := 3 }
    (by decide)
  exact ⟨h.1, h.2.2.2.1, h.2.2.2.2⟩

/-! ### The loop over a network that may change between attempts -/

/-- The loop over a network that gives the same answer at every attempt is
`listenLoop`. -/
theorem listenLoop_eq_listenLoopAt (bind : Int → ListenOutcome) (P step : Int)
    (label : String) (n : Nat) :
    ∀ (attempt : Nat) (port : Int),
      listenLoop bind P step label n attempt port
        = listenLoopAt (fun _ => bind) P step label n attempt port := by
  induction n with
  | zero => intro attempt port; rfl
  | succ n ih =>
    intro attempt port
    rw [listenLoop, listenLoopAt, ih]

theorem listenWithRetry_eq_listenWithRetryAt (bind : Int → ListenOutcome) (P : Int)
    (options : Options) :
    listenWithRetry bind P options = listenWithRetryAt (fun _ => bind) P options :=
  listenLoop_eq_listenLoopAt bind P options.step options.label options.maxAttempts 0 P

theorem listenLoopAt_retry (bind : Nat → Int → ListenOutcome) (P step : Int)
    (label : String) (n attempt : Nat) (port : Int)
    (h : leadsToRetry (bind attempt port)) :
    listenLoopAt bind P step label (n + 1) attempt port
      = ((listenLoopAt bind P step label n (attempt + 1) (port + step)).1,
          [Event.createServer attempt, Event.listen attempt port, Event.close attempt]
            ++ (listenLoopAt bind P step label n (attempt + 1) (port + step)).2) := by
  cases hb : bind attempt port with
  | listening address => simp [hb, leadsToRetry] at h
  | rejected err =>
    have hr : shouldRethrow err = false := by simpa [hb, leadsToRetry] using h
    cases err with
    | none => simp [listenLoopAt, hb]
    | some e => simp [listenLoopAt, hb, hr]

theorem listenLoopAt_busy (bind : Nat → Int → ListenOutcome) (P step : Int)
    (label : String) (k : Nat) :
    ∀ (m attempt : Nat) (port : Int),
      (∀ i : Nat, i < k → leadsToRetry (bind (attempt + i) (port + (i : Int) * step))) →
      listenLoopAt bind P step label (k + m) attempt port
        = ((listenLoopAt bind P step label m (attempt + k) (port + (k : Int) * step)).1,
            retriedAttempts step k attempt port
              ++ (listenLoopAt bind P step label m (attempt + k)
                  (port + (k : Int) * step)).2) := by
  induction k with
  | zero => intro m attempt port _; simp [retriedAttempts]
  | succ k ih =>
    intro m attempt port h
    have h0 : leadsToRetry (bind attempt port) := by simpa using h 0 (Nat.succ_pos k)
    have hrest : ∀ i : Nat, i < k →
        leadsToRetry (bind (attempt + 1 + i) (port + step + (i : Int) * step)) := by
      intro i hi
      have := h (i + 1) (Nat.succ_lt_succ hi)
      have e : port + ((i + 1 : Nat) : Int) * step = port + step + (i : Int) * step := by
        push_cast; ring
      have e0 : attempt + (i + 1) = attempt + 1 + i := by omega
      rwa [e, e0] at this
    have e1 : k + 1 + m = (k + m) + 1 := by omega
    have e2 : attempt + 1 + k = attempt + (k + 1) := by omega
    have e3 : port + step + (k : Int) * step = port + ((k + 1 : Nat) : Int) * step := by
      push_cast; ring
    rw [e1, listenLoopAt_retry bind P step label (k + m) attempt port h0,
      ih m (attempt + 1) (port + step) hrest, e2, e3]
    simp [retriedAttempts]

theorem listenLoopAt_abort (bind : Nat → Int → ListenOutcome) (P step : Int)
    (label : String) (n attempt : Nat) (port : Int) (e : JsError)
    (h : bind attempt port = ListenOutcome.rejected (some e))
    (hc : e.code ≠ some "EADDRINUSE") :
    listenLoopAt bind P step label (n + 1) attempt port
      = (Completion.thrown e, [Event.createServer attempt, Event.listen attempt port]) := by
  simp [listenLoopAt, h, shouldRethrow, hc]

theorem createdServers_listenLoopAt_succ (bind : Nat → Int → ListenOutcome) (P step : Int)
    (label : String) (n attempt : Nat) (port : Int) :
    attempt ∈ createdServers (listenLoopAt bind P step label (n + 1) attempt port).2 := by
  rw [listenLoopAt]
  cases hb : bind attempt port with
  | listening address => simp [createdServers]
  | rejected err =>
    cases err with
    | none => simp [shouldRethrow, createdServers]
    | some e =>
      by_cases hc : e.code = some "EADDRINUSE" <;> simp [shouldRethrow, hc, createdServers]

theorem listenWithRetryAt_split (bind : Nat → Int → ListenOutcome) (P : Int)
    (options : Options) (k : Nat) (hk : k ≤ options.maxAttempts)
    (hbusy : ∀ i : Nat, i < k → leadsToRetry (bind i (P + (i : Int) * options.step))) :
    listenWithRetryAt bind P options
      = ((listenLoopAt bind P options.step options.label (options.maxAttempts - k) k
            (P + (k : Int) * options.step)).1,
          retriedAttempts options.step k 0 P
            ++ (listenLoopAt bind P options.step options.label (options.maxAttempts - k) k
                (P + (k : Int) * options.step)).2) := by
  have e : options.maxAttempts = k + (options.maxAttempts - k) := by omega
  have h := listenLoopAt_busy bind P options.step options.label k (options.maxAttempts - k) 0 P
    (by intro i hi; rw [Nat.zero_add]; exact hbusy i hi)
  rw [Nat.zero_add] at h
  unfold listenWithRetryAt
  rw [← h, ← e]

/-- C4, as the code has it: let attempt `k` be reached through retries and let
its bind be rejected with `err`, on a network that may change from attempt to
attempt. When `err` is an error object whose code is not `EADDRINUSE`,
`listenWithRetry` throws that object and attempt `k` is its last call of the
factory and of `listen`. The factory is called for attempt `k + 1` exactly
when an attempt is left and `err` is an error object with code `EADDRINUSE` or
a falsy value. -/
theorem listenWithRetryAt_abort (bind : Nat → Int → ListenOutcome) (P : Int)
    (options : Options) (k : Nat) (err : Option JsError) (hk : k < options.maxAttempts)
    (hbefore : ∀ i : Nat, i < k → leadsToRetry (bind i (P + (i : Int) * options.step)))
    (hfail : bind k (P + (k : Int) * options.step) = ListenOutcome.rejected err) :
    (∀ e : JsError, err = some e → e.code ≠ some "EADDRINUSE" →
        (listenWithRetryAt bind P options).1 = Completion.thrown e
          ∧ listenPorts (listenWithRetryAt bind P options).2
              = (List.range (k + 1)).map (fun i : Nat => P + (i : Int) * options.step)
          ∧ createdServers (listenWithRetryAt bind P options).2 = List.range (k + 1))
      ∧ (k + 1 ∈ createdServers (listenWithRetryAt bind P options).2
          ↔ (err = none ∨ ∃ e : JsError, err = some e ∧ e.code = some "EADDRINUSE")
              ∧ k + 1 < options.maxAttempts) := by
  have habort : ∀ e : JsError, err = some e → e.code ≠ some "EADDRINUSE" →
      (listenWithRetryAt bind P options).1 = Completion.thrown e
        ∧ listenPorts (listenWithRetryAt bind P options).2
            = (List.range (k + 1)).map (fun i : Nat => P + (i : Int) * options.step)
        ∧ createdServers (listenWithRetryAt bind P options).2 = List.range (k + 1) := by
    intro e he hc
    subst he
    obtain ⟨m, hm⟩ : ∃ m, options.maxAttempts - k = m + 1 :=
      ⟨options.maxAttempts - k - 1, by omega⟩
    rw [listenWithRetryAt_split bind P options k (Nat.le_of_lt hk) hbefore, hm,
      listenLoopAt_abort bind P options.step options.label m k _ e hfail hc]
    refine ⟨rfl, ?_, ?_⟩
    · simp only [listenPorts_append, listenPorts_retriedAttempts, listenPorts]
      exact map_range_succ_ports P options.step k
    · simp only [createdServers_append, createdServers_retriedAttempts, createdServers]
      exact map_range_succ_ids k
  refine ⟨habort, ?_⟩
  by_cases hr : shouldRethrow err = true
  · -- the error is rethrown: an error object with another code
    cases err with
    | none => simp [shouldRethrow] at hr
    | some e =>
      have hc : e.code ≠ some "EADDRINUSE" := by simpa [shouldRethrow] using hr
      rw [(habort e rfl hc).2.2]
      simp [hc]
  · have hr2 : shouldRethrow err = false := by simpa using hr
    have hcond : err = none ∨ ∃ e : JsError, err = some e ∧ e.code = some "EADDRINUSE" := by
      cases err with
      | none => exact Or.inl rfl
      | some e => exact Or.inr ⟨e, rfl, by simpa [shouldRethrow] using hr2⟩
    have hbusy : ∀ i : Nat, i < k + 1 →
        leadsToRetry (bind i (P + (i : Int) * options.step)) := by
      intro i hi
      rcases Nat.lt_succ_iff_lt_or_eq.mp hi with h | h
      · exact hbefore i h
      · subst h; rw [hfail]; exact hr2
    have hsplit := listenWithRetryAt_split bind P options (k + 1) hk hbusy
    by_cases hlast : k + 1 < options.maxAttempts
    · obtain ⟨m, hm⟩ : ∃ m, options.maxAttempts - (k + 1) = m + 1 :=
        ⟨options.maxAttempts - (k + 1) - 1, by omega⟩
      have hin := createdServers_listenLoopAt_succ bind P options.step options.label m (k + 1)
        (P + ((k + 1 : Nat) : Int) * options.step)
      simp only [hcond, hlast, and_self, iff_true]
      rw [hsplit, hm, createdServers_append]
      exact List.mem_append_right _ hin
    · have hz : options.maxAttempts - (k + 1) = 0 := by omega
      rw [hsplit, hz]
      rw [createdServers_append, createdServers_retriedAttempts]
      simp only [listenLoopAt, createdServers, List.append_nil, List.mem_map, List.mem_range,
        hlast, and_false, iff_false, not_exists, not_and]
      intro i hi
      omega

/-- Witness of C4: with step 0 every attempt is on port 3000; the first finds
it in use, the second is refused with `EACCES`, and the run throws that error
after two calls of the factory and of `listen`. -/
theorem listenWithRetryAt_abort_witness :
    (listenWithRetryAt busyThenRefused 3000 { step := 0 }).1
        = Completion.thrown { code := some "EACCES", message := "listen EACCES" }
      ∧ listenPorts (listenWithRetryAt busyThenRefused 3000 { step := 0 }).2 = [3000, 3000]
      ∧ createdServers (listenWithRetryAt busyThenRefused 3000 { step := 0 }).2 = [0, 1] := by
  have h := (listenWithRetryAt_abort busyThenRefused 3000 { step := 0 } 1
    (some { code := some "EACCES", message := "listen EACCES" }) (by decide) (by decide)
    (by decide)).1 { code := some "EACCES", message := "listen EACCES" } rfl (by decide)
  exact ⟨h.1, h.2.1, h.2.2⟩

/-- C4 as stated fails: a bind rejected with a falsy value is not an
address-in-use failure, and it leads to a retry. Port 3000 is rejected so, and
the run goes on to port 3001 and returns the server bound there. -/
theorem listenWithRetry_retries_falsy_rejection :
    falsyRejection 3000 = ListenOutcome.rejected none
      ∧ ¬ addrInUse (falsyRejection 3000)
      ∧ (listenWithRetry falsyRejection 3000 {}).1
          = Completion.returned { server := 1, port := 3001 }
      ∧ listenPorts (listenWithRetry falsyRejection 3000 {}).2 = [3000, 3001]
      ∧ createdServers (listenWithRetry falsyRejection 3000 {}).2 = [0, 1] := by
  decide

/-- C9, as the code has it: a run that returns has written the warning that
names the preferred port and the returned port exactly when the preferred port
is not 0 and the returned port differs from it, and no warning otherwise; so
for the preferred port 0 no warning is written, whatever port is returned. The
returned port is the port of the address of the server the run hands back (the
requested port when the address gives none). -/
theorem listenWithRetry_fallback_warning (bind : Int → ListenOutcome) (P : Int)
    (options : Options) (b : Bound)
    (hret : (listenWithRetry bind P options).1 = Completion.returned b) :
    warnings (listenWithRetry bind P options).2
        = (if P ≠ 0 ∧ b.port ≠ P then
            [options.label ++ " port " ++ toString P ++ " in use, switched to "
              ++ toString b.port]
          else [])
      ∧ ∃ (p : Int) (address : Option Int),
          Event.listen b.server p ∈ (listenWithRetry bind P options).2
            ∧ bind p = ListenOutcome.listening address ∧ b.port = address.getD p := by
  refine ⟨?_, listenLoop_returned bind P options.step options.label options.maxAttempts 0 P b
    hret⟩
  have hw := listenLoop_warnings bind P options.step options.label options.maxAttempts 0 P
  unfold listenWithRetry at hret ⊢
  rw [hw, hret]
  simp only [fallbackWarning, warnMessage]
  split <;> rfl

/-- Witness of C9: ports 3000 and 3001 in use, the server ends up on 3002. -/
theorem listenWithRetry_fallback_warning_witness :
    warnings (listenWithRetry (busyPorts [3000, 3001]) 3000 {}).2
        = ["Server port 3000 in use, switched to 3002"] :=
  (listenWithRetry_fallback_warning (busyPorts [3000, 3001]) 3000 {} ⟨2, 3002⟩
    (by decide)).1.trans (by decide)

/-- C9 as stated fails for the preferred port 0: the server is bound on port
49152, which differs from 0, and no warning is written. -/
theorem listenWithRetry_port_zero_no_warning :
    (listenWithRetry sampleNetwork 0 {}).1 = Completion.returned { server := 0, port := 49152 }
      ∧ (49152 : Int) ≠ 0
      ∧ warnings (listenWithRetry sampleNetwork 0 {}).2 = [] := by
  decide

/-- C10, as the code has it: when every attempt found its port in use, the
error thrown has the message `<label> failed to find an open port (starting at
<preferredPort>)`, which names the preferred port; it is the same message for
every `maxAttempts`. -/
theorem listenWithRetry_exhaustion_message (bind : Int → ListenOutcome) (P : Int)
    (options : Options)
    (hall : ∀ i : Nat, i < options.maxAttempts →
      addrInUse (bind (P + (i : Int) * options.step))) :
    ∃ err : JsError, (listenWithRetry bind P options).1 = Completion.thrown err
      ∧ err.message
          = options.label ++ " failed to find an open port (starting at " ++ toString P ++ ")"
      ∧ namesNumber err.message P := by
  have hsplit := listenWithRetry_split bind P options options.maxAttempts (Nat.le_refl _) hall
  rw [Nat.sub_self] at hsplit
  refine ⟨exhaustionError options.label P, by rw [hsplit]; rfl, rfl, ?_⟩
  refine ⟨(options.label ++ " failed to find an open port (starting at ").toList,
    ")".toList, ?_⟩
  simp [exhaustionError, String.toList]

/-- Witness of C10: seven attempts from port 3000, every port in use. -/
theorem listenWithRetry_exhaustion_message_witness :
    ∃ err : JsError,
      (listenWithRetry allBusy 3000 { maxAttempts := 7, label := "HTTP server" }).1
          = Completion.thrown err
        ∧ err.message = "HTTP server failed to find an open port (starting at 3000)" := by
  obtain ⟨err, h1, h2, _⟩ := listenWithRetry_exhaustion_message allBusy 3000
    { maxAttempts := 7, label := "HTTP server" } (by decide)
  exact ⟨err, h1, by rw [h2]; decide⟩

/-- C10 as stated fails: after seven attempts from port 3000 the message of
the error is `HTTP server failed to find an open port (starting at 3000)`, and
the attempt count 7 does not occur in it. -/
theorem listenWithRetry_exhaustion_message_omits_attempts :
    (listenWithRetry allBusy 3000 { maxAttempts := 7, label := "HTTP server" }).1
        = Completion.thrown
            { code := none
              message := "HTTP server failed to find an open port (starting at 3000)" }
      ∧ ¬ namesNumber "HTTP server failed to find an open port (starting at 3000)" 7 := by
  decide

/-! ## The proxy middleware: lemmas -/

theorem startsWith_of_isPrefixOf {p url : List Char} (h : p.isPrefixOf url = true) : p <+: url :=
  ( List.isPrefixOf_iff_prefix).mp h

theorem isPrefixOf_of_startsWith {p url : List Char} (h : p <+: url) : p.isPrefixOf url = true :=
  ( List.isPrefixOf_iff_prefix).mpr h

theorem Headers.get_set (h : Headers) (name value key : String) :
    Headers.get (Headers.set h name value) key
      = if key = name then some value else Headers.get h key := by
  induction h with
  | nil =>
    by_cases hk : key = name
    · simp [Headers.set, Headers.get, hk]
    · have hk2 : ¬ name = key := fun h => hk h.symm
      simp [Headers.set, Headers.get, hk, hk2]
  | cons kv rest ih =>
    obtain ⟨k, v⟩ := kv
    by_cases hkn : k = name
    · by_cases hk : key = name
      · simp [Headers.set, Headers.get, hkn, hk]
      · have hk2 : ¬ name = key := fun h => hk h.symm
        simp [Headers.set, Headers.get, hkn, hk, hk2]
    · by_cases hkk : k = key
      · have hk : ¬ key = name := fun h => hkn (hkk.trans h)
        simp [Headers.set, Headers.get, hkn, hkk, hk]
      · simp [Headers.set, Headers.get, hkn, hkk, ih]

/-- The middleware issues the upstream request exactly when `req.url` starts
with `PROXY_PREFIX` and the URL constructor does not throw. -/
theorem proxyMiddleware_takesOver_iff (newURL : List Char → Option (List Char))
    (PROXY_PREFIX : List Char) (targetUrl : TargetUrl) (req : Request) :
    (proxyMiddleware newURL PROXY_PREFIX targetUrl req).takesOver = true
      ↔ PROXY_PREFIX <+: req.url ∧ newURL req.url ≠ none := by
  unfold proxyMiddleware
  by_cases h : PROXY_PREFIX.isPrefixOf req.url = true
  · have hp : PROXY_PREFIX <+: req.url := startsWith_of_isPrefixOf h
    cases hu : newURL req.url <;> simp [h, ProxyAction.takesOver, hp]
  · have hn : ¬ PROXY_PREFIX <+: req.url := fun hp => h (isPrefixOf_of_startsWith hp)
    simp [h, ProxyAction.takesOver, hn]

/-- The decimal numeral of a natural number is not empty. -/
theorem toDigitsCore_ne_nil (b fuel : Nat) :
    ∀ (n : Nat) (ds : List Char), ds ≠ [] → Nat.toDigitsCore b fuel n ds ≠ [] := by
  induction fuel with
  | zero => intro n ds h; simpa [Nat.toDigitsCore] using h
  | succ fuel ih =>
    intro n ds _
    rw [Nat.toDigitsCore]
    split
    · simp
    · exact ih _ _ (by simp)

theorem toString_nat_ne_empty (n : Nat) : toString n ≠ "" := by
  have h : Nat.toDigits 10 n ≠ [] := by
    rw [Nat.toDigits, Nat.toDigitsCore]
    split
    · simp
    · exact toDigitsCore_ne_nil 10 n _ _ (by simp)
  intro he
  apply h
  have : (toString n).data = [] := by rw [he]
  simpa [toString, Nat.repr, List.asString] using this

/-- The `host` of the URL object made from a target text: the hostname, with
`:` and the port after it when the text gives a port that is not the default
port of its scheme. -/
theorem host_parseTarget (target : TargetText) (targetUrl : TargetUrl)
    (h : parseTarget target = some targetUrl) :
    targetUrl.host
      = (match target.port with
          | none => target.hostname
          | some p =>
            if defaultPort target.scheme = some p then target.hostname
            else target.hostname ++ ":" ++ toString p) := by
  unfold parseTarget at h
  cases hp : target.port with
  | none =>
    simp only [hp, Option.some.injEq] at h
    subst h
    simp [TargetUrl.host]
  | some p =>
    simp only [hp] at h
    by_cases hbig : 65535 < p
    · simp [hbig] at h
    · simp only [hbig, if_false, Option.some.injEq] at h
      subst h
      by_cases hd : defaultPort target.scheme = some p
      · simp [TargetUrl.host, hd]
      · simp [TargetUrl.host, hd, toString_nat_ne_empty p]

/-- The invariant holds of a fresh response and is kept by `writeHead`,
`write` and `end`. -/
theorem Response.wellFormed_fresh : Response.fresh.WellFormed := by
  intro _; exact ⟨rfl, rfl⟩

theorem Response.wellFormed_write (res : Response) (chunk : String) (h : res.WellFormed) :
    (res.write chunk).WellFormed := by
  unfold Response.write
  split
  · exact h
  · intro hs; simp at hs

theorem Response.wellFormed_end (res : Response) (chunk : String) (h : res.WellFormed) :
    (Response.end res chunk).WellFormed := by
  unfold Response.end
  split
  · exact h
  · intro hs; simp at hs

theorem Response.wellFormed_writeHead (res res1 : Response) (statusCode : Nat)
    (headers : Headers) (h : res.writeHead statusCode headers = some res1) :
    res1.WellFormed := by
  unfold Response.writeHead at h
  split at h
  · simp at h
  · simp only [Option.some.injEq] at h
    subst h
    intro hs; simp at hs

/-! ## The proxy middleware: the claims -/

/-- C1 at the request `/api/widgets?id=5` with `PROXY_PREFIX = /api`: the
middleware sends the path `/widgets?id=5?id=5` upstream, the query string
twice, where the rewrite of the specification gives `/widgets?id=5`. The
request `/api` is sent upstream as `/`. -/
theorem proxy_path_repeats_query :
    upstreamPath (proxyMiddleware sampleNewURL "/api".toList upExample
        { method := "GET", url := "/api/widgets?id=5".toList, headers := [] })
        = some "/widgets?id=5?id=5".toList
      ∧ specRewrite "/api".toList "/api/widgets?id=5".toList = "/widgets?id=5".toList
      ∧ upstreamPath (proxyMiddleware sampleNewURL "/api".toList upExample
          { method := "GET", url := "/api".toList, headers := [] })
          = some "/".toList := by
  decide

/-- C5, as the code has it: the middleware issues the upstream request exactly
when the request URL as received, query string included, starts with
`PROXY_PREFIX` character by character and the URL constructor accepts the
request URL. A request whose URL does not start with `PROXY_PREFIX`, and no
other, goes to `next()` unchanged. A request whose URL starts with
`PROXY_PREFIX` and is refused by the URL constructor, and no other, ends in
the exception, with no upstream request and no call of `next()`. -/
theorem proxy_applicability (newURL : List Char → Option (List Char))
    (PROXY_PREFIX : List Char) (targetUrl : TargetUrl) (req : Request) :
    ((proxyMiddleware newURL PROXY_PREFIX targetUrl req).takesOver = true
        ↔ PROXY_PREFIX <+: req.url ∧ newURL req.url ≠ none)
      ∧ (proxyMiddleware newURL PROXY_PREFIX targetUrl req = ProxyAction.next req
          ↔ ¬ PROXY_PREFIX <+: req.url)
      ∧ (proxyMiddleware newURL PROXY_PREFIX targetUrl req = ProxyAction.threw
          ↔ PROXY_PREFIX <+: req.url ∧ newURL req.url = none) := by
  refine ⟨proxyMiddleware_takesOver_iff newURL PROXY_PREFIX targetUrl req, ?_, ?_⟩
  · unfold proxyMiddleware
    by_cases h : PROXY_PREFIX.isPrefixOf req.url = true
    · have hp : PROXY_PREFIX <+: req.url := startsWith_of_isPrefixOf h
      cases hu : newURL req.url <;> simp [h, hp]
    · have hn : ¬ PROXY_PREFIX <+: req.url := fun hp => h (isPrefixOf_of_startsWith hp)
      simp [h, hn]
  · unfold proxyMiddleware
    by_cases h : PROXY_PREFIX.isPrefixOf req.url = true
    · have hp : PROXY_PREFIX <+: req.url := startsWith_of_isPrefixOf h
      cases hu : newURL req.url <;> simp [h, hp]
    · have hn : ¬ PROXY_PREFIX <+: req.url := fun hp => h (isPrefixOf_of_startsWith hp)
      simp [h, hn]

/-- Witness of C5: with `PROXY_PREFIX = /api` the request `/API/widgets?id=5`
goes to `next()` as it came; with `PROXY_PREFIX = /` the request `//`, which
the URL constructor refuses, ends in the exception. -/
theorem proxy_applicability_witness :
    proxyMiddleware sampleNewURL "/api".toList upExample
        { method := "GET", url := "/API/widgets?id=5".toList, headers := [("accept", "*/*")] }
      = ProxyAction.next
        { method := "GET", url := "/API/widgets?id=5".toList, headers := [("accept", "*/*")] }
    ∧ proxyMiddleware sampleNewURL "/".toList upExample
        { method := "GET", url := "//".toList, headers := [] } = ProxyAction.threw :=
  ⟨(proxy_applicability sampleNewURL "/api".toList upExample
      { method := "GET", url := "/API/widgets?id=5".toList, headers := [("accept", "*/*")] }
      ).2.1.mpr (by decide),
    (proxy_applicability sampleNewURL "/".toList upExample
      { method := "GET", url := "//".toList, headers := [] }).2.2.mpr (by decide)⟩

/-- C5 as stated fails for a `PROXY_PREFIX` with a `?` in it: with
`PROXY_PREFIX = /api?` the request `/api?x=1` is taken over, while its path
without the query string, `/api`, does not start with `/api?`. -/
theorem proxy_takes_over_on_query_match :
    (proxyMiddleware sampleNewURL "/api?".toList upExample
        { method := "GET", url := "/api?x=1".toList, headers := [] }).takesOver = true
      ∧ requestPath "/api?x=1".toList = "/api".toList
      ∧ ¬ "/api?".toList <+: requestPath "/api?x=1".toList := by
  decide

/-- C6, as the code has it: a request that is forwarded goes upstream with the
method of the original request and with the headers of the original request,
except that `host` is the hostname of the target, followed by `:` and the port
when the target URL gives a port that is not the default port of its scheme;
every other header reads as in the original. -/
theorem proxy_request_options (newURL : List Char → Option (List Char))
    (PROXY_PREFIX : List Char) (target : TargetText) (targetUrl : TargetUrl)
    (req : Request) (search : List Char)
    (htarget : parseTarget target = some targetUrl)
    (hmatch : PROXY_PREFIX <+: req.url) (hurl : newURL req.url = some search) :
    ∃ (client : Client) (options : RequestOptions),
      proxyMiddleware newURL PROXY_PREFIX targetUrl req = ProxyAction.forward client options
        ∧ options.method = req.method
        ∧ ∀ name : String,
            options.headers.get name
              = if name = "host" then
                  some (match target.port with
                    | none => target.hostname
                    | some p =>
                      if defaultPort target.scheme = some p then target.hostname
                      else target.hostname ++ ":" ++ toString p)
                else req.headers.get name := by
  have hb : PROXY_PREFIX.isPrefixOf req.url = true := isPrefixOf_of_startsWith hmatch
  refine ⟨_, _, by simp only [proxyMiddleware, hb, hurl]; rfl, rfl, ?_⟩
  intro name
  simp only [Headers.get_set, host_parseTarget target targetUrl htarget]

/-- Witness of C6: `POST /api/widgets?id=5` with target `http://up.example:9000`
goes upstream as a `POST` with `host: up.example:9000` and the other header
as it came. -/
theorem proxy_request_options_witness :
    ∃ (client : Client) (options : RequestOptions),
      proxyMiddleware sampleNewURL "/api".toList upExample
          { method := "POST", url := "/api/widgets?id=5".toList
            headers := [("host", "localhost:3000"), ("accept", "*/*")] }
          = ProxyAction.forward client options
        ∧ options.method = "POST"
        ∧ options.headers.get "host" = some "up.example:9000"
        ∧ options.headers.get "accept" = some "*/*" := by
  obtain ⟨client, options, h1, h2, h3⟩ := proxy_request_options sampleNewURL "/api".toList
    { scheme := "http", hostname := "up.example", port := some 9000 } upExample
    { method := "POST", url := "/api/widgets?id=5".toList
      headers := [("host", "localhost:3000"), ("accept", "*/*")] } "?id=5".toList
    (by decide) (by decide) (by decide)
  refine ⟨client, options, h1, h2, ?_, ?_⟩
  · rw [h3 "host"]; decide
  · rw [h3 "accept"]; decide

/-- C6 as stated fails for the target `http://up.example:80`: the target URL
gives the port 80, its authority is `up.example:80`, and the request goes
upstream with `host: up.example`. -/
theorem proxy_host_drops_default_port :
    TargetText.authority { scheme := "http", hostname := "up.example", port := some 80 }
        = "up.example:80"
      ∧ parseTarget { scheme := "http", hostname := "up.example", port := some 80 }
          = some { protocol := "http:", hostname := "up.example", port := "" }
      ∧ upstreamHeader (proxyMiddleware sampleNewURL "/api".toList
          { protocol := "http:", hostname := "up.example", port := "" }
          { method := "GET", url := "/api/widgets?id=5".toList
            headers := [("host", "localhost:3000")] }) "host" = some "up.example" := by
  decide

/-- C7: when the upstream request fails while no headers have gone to the
caller, the caller gets status 502 with the body `Bad Gateway` and nothing
else, and the response is ended. -/
theorem onProxyError_before_headers (err : JsError) (res : Response) (hwf : res.WellFormed)
    (hns : res.headersSent = false) :
    (onProxyError err res).2.sentStatus = some 502
      ∧ (onProxyError err res).2.sentBody = "Bad Gateway"
      ∧ (onProxyError err res).2.ended = true := by
  have hs : res.sentStatus = none := by
    cases h : res.sentStatus with
    | none => rfl
    | some x => simp [Response.headersSent, h] at hns
  obtain ⟨hbody, hend⟩ := hwf hs
  have he : ("" : String) ++ "Bad Gateway" = "Bad Gateway" := by decide
  simp [onProxyError, Response.end, Response.headersSent, hs, hbody, hend, he]

/-- Witness of C7: the upstream refuses the connection before anything was
written to the caller. -/
theorem onProxyError_before_headers_witness :
    (onProxyError { code := some "ECONNREFUSED", message := "connect ECONNREFUSED" }
        Response.fresh).2.sentStatus = some 502
      ∧ (onProxyError { code := some "ECONNREFUSED", message := "connect ECONNREFUSED" }
        Response.fresh).2.sentBody = "Bad Gateway" := by
  have h := onProxyError_before_headers
    { code := some "ECONNREFUSED", message := "connect ECONNREFUSED" } Response.fresh
    Response.wellFormed_fresh (by decide)
  exact ⟨h.1, h.2.1⟩

/-- C8 at a response that has begun: after `writeHead(200, ...)` and the body
piece `partial`, an upstream error leaves the status 200 and ends the
response, and it writes `Bad Gateway` after the body already sent. -/
theorem onProxyError_after_headers_appends_body :
    (onProxyResponse 200 [("content-type", "text/plain")] Response.fresh).map
        (fun res => (onProxyError { code := some "ECONNRESET", message := "socket hang up" }
          (res.write "partial")).2)
      = some { statusCode := 200, sentStatus := some 200
               sentHeaders := [("content-type", "text/plain")]
               sentBody := "partialBad Gateway", ended := true } := by
  decide

end Server
